/-
  Verification of the turn scheduler (`ConversationEngine`), the streaming
  session manager (`streamModelResponse`) and the orchestration retry logic of
  the llm-grpchat repository.

  The TypeScript sources are shallowly embedded as executable Lean
  definitions:
  * `ConversationEngine` (src/lib/conversationEngine.ts) becomes a record
    `EngineState` together with pure state-transition functions; JS `Set`s are
    modelled as duplicate-free `List String` (guarded insert, filter-based
    delete), `Map`s as association lists.
  * `setTimeout` callbacks are modelled as armed `Timer` values carried inside
    the state; firing a timer removes it and runs the callback body.  Note that
    `reset()` in the source clears the data fields but holds no timer handles,
    so armed timers survive a reset — the model reflects this.
  * The `dispatched` field is a ghost log of every `onTriggerResponse`
    invocation (the observable dispatch effect).
  * `streamModelResponse` (src/lib/streamHandler.ts) becomes a function from a
    description of the upstream response to the list of observable actions
    (registry add/delete, `onToken`, `onComplete`, `onError`) in source order.
  * The retry logic of `triggerModelResponse` (ChatContainer) is embedded via
    `onCompleteRetry` and `handlerRetryCount`.
-/
import Mathlib

namespace GrpChat

/-! ## Data model (src/types/chat.ts) -/

/-- Participant role of a message, from the `Message.role` union type. -/
inductive Role where
  | user
  | assistant
deriving DecidableEq, Repr

/-- The fields of `Model` read by the scheduler: `id` and `shortName`
(`name`, `provider`, `color`, `isActive` are never consulted by the code
under verification). -/
structure Model where
  id : String
  shortName : String
deriving DecidableEq, Repr

/-- The fields of `Message` read by `analyzeForResponse`: `role`, `content`
and the optional author model id (`modelId`; `none` for plain user
messages, `some "system"` for synthetic join/leave notices). -/
structure Message where
  role : Role
  content : String
  modelId : Option String
deriving DecidableEq, Repr

/-- `ResponseDecision` from conversationEngine.ts.  `delay` is `Int` because
the source computes `2000 + modelIndex * 500 + …` where `modelIndex` is `-1`
when the model is absent from the roster. -/
structure ResponseDecision where
  shouldRespond : Bool
  delay : Int
  priority : Nat
deriving DecidableEq, Repr

/-- Entry of `responseQueue`: `{ modelId, priority }`. -/
structure QueueEntry where
  modelId : String
  priority : Nat
deriving DecidableEq, Repr

/-! ## Small helpers: association lists for JS `Map`, guarded lists for `Set` -/

/-- `map.get(k) || 0` on an association list. -/
def lookupD : List (String × Nat) → String → Nat
  | [], _ => 0
  | p :: rest, k => if p.1 = k then p.2 else lookupD rest k

/-- `map.set(k, v)` on an association list (replace any previous binding). -/
def setK (m : List (String × Nat)) (k : String) (v : Nat) :
    List (String × Nat) :=
  (k, v) :: m.filter (fun p => p.1 ≠ k)

/-- `map.delete(k)` on an association list. -/
def delK (m : List (String × Nat)) (k : String) : List (String × Nat) :=
  m.filter (fun p => p.1 ≠ k)

/-- JS `Set.add`: no duplicates are ever created. -/
def insertS (id : String) (l : List String) : List String :=
  if id ∈ l then l else id :: l

/-- JS `Set.delete`. -/
def eraseS (id : String) (l : List String) : List String :=
  l.filter (fun x => x ≠ id)

/-! ## Substring and mention matching

`analyzeForResponse` tests `new RegExp(`@tag\b`, "i")` against the message
content and uses `String.includes` for `"?"`, `"opus"`, `"gpt-5"`, `"kimi"`.
We implement both over `List Char`. -/

/-- `hay` starts with `pat` (exact). -/
def startsWithChars : List Char → List Char → Bool
  | _, [] => true
  | [], _ :: _ => false
  | h :: hs, p :: ps => h = p && startsWithChars hs ps

/-- JS `String.includes` on char lists. -/
def containsSub : List Char → List Char → Bool
  | hay, needle =>
    match hay with
    | [] => startsWithChars [] needle
    | _ :: rest => startsWithChars hay needle || containsSub rest needle

/-- JS `String.includes`. -/
def strContains (hay needle : String) : Bool :=
  containsSub hay.data needle.data

/-- ASCII word character, the `\w` class used by a non-unicode `\b`. -/
def isWordChar (c : Char) : Bool :=
  ('a' ≤ c && c ≤ 'z') || ('A' ≤ c && c ≤ 'Z') || ('0' ≤ c && c ≤ '9') || c = '_'

/-- `\b` immediately after a matched character `lastc`, given the rest of the
input: a word boundary holds iff exactly one side is a word character
(end of input counts as non-word). -/
def boundaryAfter (lastc : Char) (rest : List Char) : Bool :=
  match rest with
  | [] => isWordChar lastc
  | c :: _ => isWordChar lastc != isWordChar c

/-- ASCII lowercasing on code points — the case folding the regex `i` flag
performs on the ASCII short tags used by the roster. -/
def lowerNat (c : Char) : Nat :=
  if 65 ≤ c.toNat ∧ c.toNat ≤ 90 then c.toNat + 32 else c.toNat

/-- Case-insensitive character comparison. -/
def eqCI (a b : Char) : Bool :=
  lowerNat a = lowerNat b

/-- Case-insensitively consume a non-empty tag from the front of `hay`,
returning the last consumed input character and the remaining input. -/
def dropTagCI : List Char → List Char → Option (Char × List Char)
  | h :: hs, [p] => if eqCI h p then some (h, hs) else none
  | h :: hs, p :: ps => if eqCI h p then dropTagCI hs ps else none
  | _, _ => none

/-- The regex `@tag\b` (flag `i`) matches at the current position. -/
def mentionHere (content tagLower : List Char) : Bool :=
  match content with
  | '@' :: rest =>
    match tagLower with
    | [] => boundaryAfter '@' rest
    | _ :: _ =>
      match dropTagCI rest tagLower with
      | some (lastc, rest2) => boundaryAfter lastc rest2
      | none => false
  | _ => false

/-- Scan all positions for a match of `@tag\b`. -/
def mentionScan : List Char → List Char → Bool
  | [], _ => false
  | c :: cs, tag => mentionHere (c :: cs) tag || mentionScan cs tag

/-- `new RegExp(`@${model.shortName.toLowerCase()}\b`, "i").test(content)`.
Lowercasing the tag before a case-insensitive match is redundant, so the scan
compares the raw tag case-insensitively. -/
def isMentioned (content shortName : String) : Bool :=
  mentionScan content.data shortName.data

/-! ## Scheduler state (fields of the `ConversationEngine` class) -/

/-- An armed `setTimeout` callback of the engine:
* `queueT` — the delay timer armed by `queueResponse`;
* `recheckT` — the 500 ms pause-recheck timer;
* `interTurnT` — the 8000 ms inter-turn reading-delay timer armed by
  `completeResponse` (its body captures only the popped model id). -/
inductive Timer where
  | queueT (modelId : String) (delay priority : Nat)
  | recheckT (modelId : String) (priority : Nat)
  | interTurnT (modelId : String)
deriving DecidableEq, Repr

/-- The mutable fields of `ConversationEngine`, plus the armed timers and the
ghost log of `onTriggerResponse` invocations. -/
structure EngineState where
  cooldowns : List (String × Nat) := []
  responseQueue : List QueueEntry := []
  pendingModels : List String := []
  streamingModels : List String := []
  currentlyResponding : Int := 0
  messageCountSinceResponse : List (String × Nat) := []
  timers : List Timer := []
  dispatched : List String := []
deriving DecidableEq, Repr

/-- `private maxConcurrent = 1`. -/
def maxConcurrent : Int := 1

/-- The freshly constructed engine. -/
def initState : EngineState := {}

/-- Ids held in the response queue. -/
def queueIds (s : EngineState) : List String :=
  s.responseQueue.map (fun e => e.modelId)

/-! ## `analyzeForResponse` -/

/-- `analyzeForResponse(model, messages, latestMessage, activeModels)`.
`now` stands for `Date.now()` and `rand` for `Math.random() * 1000`.
Returns the decision together with the updated engine state (the function
mutates `messageCountSinceResponse`).  The `messages` parameter is unused in
the source and kept for signature fidelity. -/
def analyzeForResponse (eng : EngineState) (model : Model)
    (_messages : List Message) (latestMessage : Message)
    (activeModels : List Model) (now rand : Nat) :
    ResponseDecision × EngineState :=
  if latestMessage.modelId = some model.id ∨ latestMessage.modelId = some "system" then
    (⟨false, 0, 0⟩, eng)
  else
    let priority : Nat := 50
    let silenceCount := lookupD eng.messageCountSinceResponse model.id
    let silence' := setK eng.messageCountSinceResponse model.id (silenceCount + 1)
    let eng' := { eng with messageCountSinceResponse := silence' }
    let isMent := isMentioned latestMessage.content model.shortName
    let priority := if isMent then 100 else priority
    let lastResponse := lookupD eng.cooldowns model.id
    let isOnCooldown : Bool := decide ((now : Int) - (lastResponse : Int) < 8000)
    if isOnCooldown ∧ ¬ isMent then
      (⟨false, 0, 0⟩, eng')
    else
      let priority := if latestMessage.role = Role.user then max priority 80 else priority
      let priority := if strContains latestMessage.content "?" then max priority 70 else priority
      let priority := if silenceCount ≥ 2 then max priority 60 else priority
      let modelIndex : Int :=
        match activeModels.findIdx? (fun m => m.id = model.id) with
        | some i => (i : Int)
        | none => -1
      let baseDelay : Int := 2000 + modelIndex * 500
      let isThinkingModel := strContains model.id "opus" || strContains model.id "gpt-5"
        || strContains model.id "kimi"
      let thinkingBonus : Int := if isThinkingModel then 2000 else 0
      let delay : Int := baseDelay + (rand : Int) + thinkingBonus
      (⟨true, delay, priority⟩, eng')

/-! ## Scheduler transitions -/

/-- `triggerResponse`: increment the counter, mark streaming, invoke the
response handler. -/
def triggerResponse (modelId : String) (s : EngineState) : EngineState :=
  { s with currentlyResponding := s.currentlyResponding + 1,
           streamingModels := insertS modelId s.streamingModels,
           dispatched := s.dispatched ++ [modelId] }

/-- The `findIndex`/`splice` insertion of `tryTrigger`: insert immediately
before the first entry whose priority is strictly below the new one, at the
end when there is none. -/
def insertByPriority : List QueueEntry → QueueEntry → List QueueEntry
  | [], e => [e]
  | x :: xs, e =>
    if x.priority < e.priority then e :: x :: xs else x :: insertByPriority xs e

/-- `tryTrigger(modelId, priority)`. -/
def tryTrigger (modelId : String) (priority : Nat) (s : EngineState) :
    EngineState :=
  if modelId ∈ s.streamingModels then
    { s with pendingModels := eraseS modelId s.pendingModels }
  else
    let s := { s with pendingModels := eraseS modelId s.pendingModels }
    if s.streamingModels ≠ [] then
      -- Extra safety branch: any model streaming ⇒ plain push to the end.
      if modelId ∈ queueIds s then s
      else { s with responseQueue := s.responseQueue ++ [⟨modelId, priority⟩] }
    else if s.currentlyResponding < maxConcurrent then
      triggerResponse modelId s
    else if modelId ∈ queueIds s then s
    else { s with responseQueue := insertByPriority s.responseQueue ⟨modelId, priority⟩ }

/-- `queueResponse(modelId, delay, priority)`: idempotency guard, then mark
pending and arm the delay timer. -/
def queueResponse (modelId : String) (delay priority : Nat) (s : EngineState) :
    EngineState :=
  if modelId ∈ s.pendingModels ∨ modelId ∈ s.streamingModels ∨ modelId ∈ queueIds s then
    s
  else
    { s with pendingModels := insertS modelId s.pendingModels,
             timers := Timer.queueT modelId delay priority :: s.timers }

/-- Body of the `setTimeout` armed by `queueResponse`, run when the delay
timer fires; `paused` is the value of the pause predicate at that instant. -/
def fireQueueTimerBody (modelId : String) (priority : Nat) (paused : Bool)
    (s : EngineState) : EngineState :=
  if modelId ∉ s.pendingModels then s
  else if paused then
    { s with timers := Timer.recheckT modelId priority :: s.timers,
             pendingModels := eraseS modelId s.pendingModels }
  else
    tryTrigger modelId priority s

/-- Body of the 500 ms pause-recheck `setTimeout`. -/
def fireRecheckTimerBody (modelId : String) (priority : Nat) (paused : Bool)
    (s : EngineState) : EngineState :=
  if modelId ∈ s.pendingModels ∧ ¬ paused then
    tryTrigger modelId priority s
  else if modelId ∈ s.pendingModels then
    queueResponse modelId 500 priority s
  else s

/-- `completeResponse(modelId)` with `now` standing for `Date.now()` and
`paused` for the pause predicate. -/
def completeResponse (modelId : String) (paused : Bool) (now : Nat)
    (s : EngineState) : EngineState :=
  let s := { s with cooldowns := setK s.cooldowns modelId now,
                    pendingModels := eraseS modelId s.pendingModels,
                    streamingModels := eraseS modelId s.streamingModels,
                    messageCountSinceResponse :=
                      setK s.messageCountSinceResponse modelId 0 }
  match s.responseQueue with
  | next :: rest =>
    if paused then { s with currentlyResponding := s.currentlyResponding - 1 }
    else
      -- Pop, mark pending, arm the 8 s reading-delay timer;
      -- `currentlyResponding` stays untouched.
      { s with responseQueue := rest,
               pendingModels := insertS next.modelId s.pendingModels,
               timers := Timer.interTurnT next.modelId :: s.timers }
  | [] => { s with currentlyResponding := s.currentlyResponding - 1 }

/-- Body of the 8000 ms inter-turn `setTimeout` armed by `completeResponse`. -/
def fireInterTurnTimerBody (modelId : String) (paused : Bool) (s : EngineState) :
    EngineState :=
  let s := { s with pendingModels := eraseS modelId s.pendingModels }
  if ¬ paused ∧ modelId ∉ s.streamingModels then
    { s with streamingModels := insertS modelId s.streamingModels,
             dispatched := s.dispatched ++ [modelId] }
  else
    let s := { s with currentlyResponding := s.currentlyResponding - 1 }
    match s.responseQueue with
    | nextNext :: rest =>
      if ¬ paused then triggerResponse nextNext.modelId { s with responseQueue := rest }
      else s
    | [] => s

/-- `forceQueueResponse(modelId, delay, priority)`: clear the cooldown, any
pending mark and any queue entry, then queue normally. -/
def forceQueueResponse (modelId : String) (delay priority : Nat)
    (s : EngineState) : EngineState :=
  let s := { s with cooldowns := delK s.cooldowns modelId,
                    pendingModels := eraseS modelId s.pendingModels,
                    responseQueue :=
                      s.responseQueue.filter (fun e => e.modelId ≠ modelId) }
  queueResponse modelId delay priority s

/-- `reset()`: clears the six data fields.  The source stores no `setTimeout`
handles, so armed timers are NOT cancelled; the ghost dispatch log is kept. -/
def reset (s : EngineState) : EngineState :=
  { initState with timers := s.timers, dispatched := s.dispatched }

/-! ## Operation language and step function -/

/-- One externally observable scheduler event.  `paused` arguments record the
value of the pause predicate at the moment the callback runs; firing a timer
that is not armed is a no-op (such an event cannot occur). -/
inductive Op where
  | queue (modelId : String) (delay priority : Nat)
  | force (modelId : String) (delay priority : Nat)
  | fireQueue (modelId : String) (delay priority : Nat) (paused : Bool)
  | fireRecheck (modelId : String) (priority : Nat) (paused : Bool)
  | fireInterTurn (modelId : String) (paused : Bool)
  | complete (modelId : String) (paused : Bool) (now : Nat)
  | resetOp
deriving DecidableEq, Repr

/-- Apply one operation.  Timer-firing operations first consume one armed
occurrence of their timer. -/
def step (op : Op) (s : EngineState) : EngineState :=
  match op with
  | .queue id d p => queueResponse id d p s
  | .force id d p => forceQueueResponse id d p s
  | .fireQueue id d p paused =>
    if Timer.queueT id d p ∈ s.timers then
      fireQueueTimerBody id p paused { s with timers := s.timers.erase (Timer.queueT id d p) }
    else s
  | .fireRecheck id p paused =>
    if Timer.recheckT id p ∈ s.timers then
      fireRecheckTimerBody id p paused { s with timers := s.timers.erase (Timer.recheckT id p) }
    else s
  | .fireInterTurn id paused =>
    if Timer.interTurnT id ∈ s.timers then
      fireInterTurnTimerBody id paused { s with timers := s.timers.erase (Timer.interTurnT id) }
    else s
  | .complete id paused now => completeResponse id paused now s
  | .resetOp => reset s

/-- Run a sequence of operations from the fresh engine. -/
def run (ops : List Op) : EngineState :=
  ops.foldl (fun s op => step op s) initState

/-! ## Streaming session manager (src/lib/streamHandler.ts)

`streamModelResponse` is embedded as a function from a description of the
upstream HTTP response to the list of its observable actions, in the order
the source performs them. -/

/-- One parsed `data:` line of the SSE body:
* `doneEv` — the `[DONE]` sentinel;
* `contentEv s` — a JSON chunk with a `content` field (`""` is falsy in JS,
  so an empty content is ignored by the source);
* `errorEv s` — a JSON chunk with an `error` field.  The source throws
  inside the same `try { JSON.parse … }` whose `catch` ignores parse errors,
  so such a chunk is swallowed;
* `junkEv` — an unparseable line, ignored. -/
inductive SSEvent where
  | doneEv
  | contentEv (s : String)
  | errorEv (s : String)
  | junkEv
deriving DecidableEq, Repr

/-- How the transfer ends when no `[DONE]` sentinel was seen:
`endOfBody` — the reader reports `done` (also the abort-flag break);
`thrown name msg` — `fetch`/`read` (or the non-2xx check) throws an
exception with the given `name` and message. -/
inductive Terminal where
  | endOfBody
  | thrown (name msg : String)
deriving DecidableEq, Repr

/-- The upstream behaviour seen by one `streamModelResponse` call. -/
structure StreamInput where
  events : List SSEvent
  terminal : Terminal
deriving DecidableEq, Repr

/-- Observable action of `streamModelResponse`, in source order:
registry insertion/removal of the model's `AbortController`, an `onToken`
delivery, and the terminal callbacks. -/
inductive StreamAction where
  | addCtrl
  | delCtrl
  | tok (s : String)
  | completeCb
  | errorCb (msg : String)
deriving DecidableEq, Repr

/-- The read loop of `streamModelResponse`: process `data:` lines until the
`[DONE]` sentinel or the end of the list.  Returns the delivered tokens, the
final `hasContent` flag and whether the sentinel was reached. -/
def runEvents : List SSEvent → Bool → List String × Bool × Bool
  | [], hc => ([], hc, false)
  | SSEvent.doneEv :: _, hc => ([], hc, true)
  | SSEvent.contentEv s :: rest, hc =>
    if s ≠ "" then
      let r := runEvents rest true
      (s :: r.1, r.2.1, r.2.2)
    else runEvents rest hc
  | SSEvent.errorEv _ :: rest, hc => runEvents rest hc
  | SSEvent.junkEv :: rest, hc => runEvents rest hc

/-- `"[Модель не ответила]"`, the placeholder sent when the stream ends with
zero content tokens. -/
def emptyPlaceholder : String := "[Модель не ответила]"

/-- `"[Таймаут запроса]"`, the placeholder sent when a timeout abort arrives
with zero content. -/
def timeoutPlaceholder : String := "[Таймаут запроса]"

/-- `String(err)` for a JS `Error`: `name + ": " + message`. -/
def errString (name msg : String) : String := name ++ ": " ++ msg

/-- The abort test of the `catch` block: `err.name === "AbortError" ||
String(err).toLowerCase().includes("abort") || String(err).includes("stopped")
|| String(err).includes("timeout")`. -/
def isAbortLike (name msg : String) : Bool :=
  name = "AbortError" || strContains (errString name msg).toLower "abort"
    || strContains (errString name msg) "stopped"
    || strContains (errString name msg) "timeout"

/-- `streamModelResponse(modelId, messages, callbacks)` as its action trace:
register the controller, relay tokens, and on every terminal path remove the
controller from the registry before invoking `onComplete`/`onError`. -/
def streamModelResponse (input : StreamInput) : List StreamAction :=
  let r := runEvents input.events false
  let toks := r.1
  let hasContent := r.2.1
  let sawDone := r.2.2
  StreamAction.addCtrl :: toks.map StreamAction.tok ++
    (if sawDone then
      StreamAction.delCtrl ::
        (if hasContent then [] else [StreamAction.tok emptyPlaceholder]) ++
        [StreamAction.completeCb]
    else
      match input.terminal with
      | Terminal.endOfBody =>
        StreamAction.delCtrl ::
          (if hasContent then [] else [StreamAction.tok emptyPlaceholder]) ++
          [StreamAction.completeCb]
      | Terminal.thrown name msg =>
        StreamAction.delCtrl ::
          (if isAbortLike name msg then
            (if ¬ hasContent ∧ strContains (errString name msg) "timeout" then
              [StreamAction.tok timeoutPlaceholder]
            else []) ++ [StreamAction.completeCb]
          else [StreamAction.errorCb (errString name msg)]))

/-- Effect of an action trace on the `activeControllers` registry (a set of
model ids): `addCtrl` is `Map.set`, `delCtrl` is `Map.delete`. -/
def applyActions (modelId : String) (reg : List String) :
    List StreamAction → List String
  | [] => reg
  | StreamAction.addCtrl :: rest => applyActions modelId (insertS modelId reg) rest
  | StreamAction.delCtrl :: rest => applyActions modelId (eraseS modelId reg) rest
  | _ :: rest => applyActions modelId reg rest

/-- `hasActiveStreams(): activeControllers.size > 0`. -/
def hasActiveStreams (reg : List String) : Bool :=
  reg ≠ []

/-! ## Caller-level retry logic (ChatContainer.triggerModelResponse)

`triggerModelResponse(modelId, retryCount = 0)` schedules, in both its
`onComplete` and `onError` callbacks, `forceQueueResponse(modelId, 0, 90)`
after a 2000 ms backoff whenever the turn produced no real content and
`retryCount < 2`. -/

/-- The retry decision of `onComplete`/`onError`: `some (backoff, priority)`
when a retry is scheduled. -/
def onCompleteRetry (retryCount : Nat) (hasRealContent : Bool) :
    Option (Nat × Nat) :=
  if hasRealContent = false ∧ retryCount < 2 then some (2000, 90) else none

/-- `conversationEngine.setResponseHandler(triggerModelResponse)`: the engine
invokes the handler with the model id only, so every dispatch through the
engine runs `triggerModelResponse` with the default `retryCount = 0`. -/
def handlerRetryCount : Nat := 0

/-- Number of attempts started for an agent whose stream always resolves
empty, after `rounds` completed turns: each completion schedules a further
`forceQueueResponse` whenever `onCompleteRetry` fires for the retry count the
engine's handler passes, and the forced entry is dispatched again. -/
def emptyStreamAttempts : Nat → Nat
  | 0 => 1
  | n + 1 =>
    emptyStreamAttempts n +
      (if (onCompleteRetry handlerRetryCount false).isSome then 1 else 0)

/-! ## Concrete operation sequences used by the counterexamples -/

/-- Four attempts of agent `A` driven by the retry path: each completion of an
empty turn schedules `forceQueueResponse("A", 0, 90)` (the `onCompleteRetry`
decision at the handler's `retryCount = 0`), whose timer then re-dispatches
`A`. -/
def retryTrace : List Op :=
  [Op.queue "A" 2000 80, Op.fireQueue "A" 2000 80 false,
   Op.complete "A" false 1000,
   Op.force "A" 0 90, Op.fireQueue "A" 0 90 false,
   Op.complete "A" false 2000,
   Op.force "A" 0 90, Op.fireQueue "A" 0 90 false,
   Op.complete "A" false 3000,
   Op.force "A" 0 90, Op.fireQueue "A" 0 90 false]

/-- `X` is dispatched and streams; then the delay timers of `A` (priority 70),
`B` (priority 90) and `C` (priority 70) fire in that order while `X` is
streaming, so each lands in the wait queue. -/
def streamingEnqueueTrace : List Op :=
  [Op.queue "X" 2000 50, Op.fireQueue "X" 2000 50 false,
   Op.queue "A" 2000 70, Op.queue "B" 2000 90, Op.queue "C" 2000 70,
   Op.fireQueue "A" 2000 70 false, Op.fireQueue "B" 2000 90 false,
   Op.fireQueue "C" 2000 70 false]

/-- `X` streams, `D` is queued behind it, `X` completes (popping `D` into the
8 s inter-turn window, during which no model streams but the concurrency
counter stays at 1); then the timers of `A` (70), `B` (90), `C` (70) fire in
that order inside the window. -/
def interTurnEnqueueTrace : List Op :=
  [Op.queue "X" 2000 50, Op.fireQueue "X" 2000 50 false,
   Op.queue "D" 2000 50, Op.fireQueue "D" 2000 50 false,
   Op.complete "X" false 1000,
   Op.queue "A" 2000 70, Op.queue "B" 2000 90, Op.queue "C" 2000 70,
   Op.fireQueue "A" 2000 70 false, Op.fireQueue "B" 2000 90 false,
   Op.fireQueue "C" 2000 70 false]

/-- `A` streams, `B` is queued behind it, `A` completes (arming the 8 s
inter-turn timer for `B`), the engine is `reset ()` while that timer is still
armed, `C` is then queued and dispatched, and finally the stale inter-turn
timer for `B` fires. -/
def staleTimerTrace : List Op :=
  [Op.queue "A" 2000 50, Op.fireQueue "A" 2000 50 false,
   Op.queue "B" 2000 50, Op.fireQueue "B" 2000 50 false,
   Op.complete "A" false 1000,
   Op.resetOp,
   Op.queue "C" 100 50, Op.fireQueue "C" 100 50 false,
   Op.fireInterTurn "B" false]

/-- The delay timer of `A` fires while the pause predicate is true, arming the
500 ms recheck; the recheck then fires after the pause has ended. -/
def pauseDropTrace : List Op :=
  [Op.queue "A" 2500 70, Op.fireQueue "A" 2500 70 true,
   Op.fireRecheck "A" 70 false]

/-- `A` streams, `X` is queued behind it, `A` completes (arming the inter-turn
timer for `X`), then the engine is `reset ()`. -/
def resetStaleTrace : List Op :=
  [Op.queue "A" 2000 50, Op.fireQueue "A" 2000 50 false,
   Op.queue "X" 2000 60, Op.fireQueue "X" 2000 60 false,
   Op.complete "A" false 1000,
   Op.resetOp]

/-! ## Claim C1 — bounded retry -/

/-- Claim C1 (code bug).  The retry path is NOT bounded by 2 retries: the
engine's response handler is registered as `setResponseHandler(triggerModelResponse)`
and invoked with the model id only, so every dispatch runs with the default
`retryCount = 0` (`handlerRetryCount`).  Hence `onCompleteRetry` fires after
every empty completion — after 3 empty rounds a 4th attempt is started
(`emptyStreamAttempts 3 = 4`), and the engine trace `retryTrace`, whose
`force`/`fireQueue` pairs are exactly the scheduled retries, dispatches the
same agent 4 times.  The claim (and spec §4.3) say the 4th attempt must never
occur. -/
theorem C1_retry_unbounded :
    onCompleteRetry handlerRetryCount false = some (2000, 90)
    ∧ emptyStreamAttempts 3 = 4
    ∧ (run retryTrace).dispatched = ["A", "A", "A", "A"] :=
  ⟨rfl, rfl, rfl⟩

/-! ## Claim C2 — queue ordering -/

/-- The splice insertion keeps exactly the entries up to the first one with a
strictly lower priority in front of the new entry. -/
lemma insertByPriority_eq (q : List QueueEntry) (e : QueueEntry) :
    insertByPriority q e =
      q.takeWhile (fun x => decide (e.priority ≤ x.priority)) ++
        e :: q.dropWhile (fun x => decide (e.priority ≤ x.priority)) := by
  induction q with
  | nil => simp [insertByPriority]
  | cons x xs ih =>
    by_cases h : x.priority < e.priority
    · simp [insertByPriority, h, List.takeWhile_cons, List.dropWhile_cons,
        Nat.not_le.mpr h]
    · simp [insertByPriority, h, List.takeWhile_cons, List.dropWhile_cons,
        Nat.not_lt.mp h, ih]

/-- Splice insertion of a fresh id preserves distinctness of queued ids. -/
lemma nodup_insertByPriority (q : List QueueEntry) (e : QueueEntry)
    (h : (q.map (fun x => x.modelId)).Nodup)
    (he : e.modelId ∉ q.map (fun x => x.modelId)) :
    ((insertByPriority q e).map (fun x => x.modelId)).Nodup := by
  rw [insertByPriority_eq, List.map_append, List.map_cons, List.nodup_middle,
    ← List.map_append, List.takeWhile_append_dropWhile]
  exact List.nodup_cons.mpr ⟨he, h⟩

/-- `queueResponse` leaves the queue unchanged. -/
lemma queueResponse_queue (id : String) (d p : Nat) (s : EngineState) :
    (queueResponse id d p s).responseQueue = s.responseQueue := by
  unfold queueResponse; split_ifs <;> rfl

/-- `queueResponse` preserves distinctness of queued ids. -/
lemma nodup_queueResponse (id : String) (d p : Nat) (s : EngineState)
    (h : (queueIds s).Nodup) : (queueIds (queueResponse id d p s)).Nodup := by
  rw [queueIds, queueResponse_queue]; exact h

/-- Appending a fresh id keeps the queued ids distinct. -/
lemma nodup_snoc (q : List QueueEntry) (e : QueueEntry)
    (h : (q.map (fun x => x.modelId)).Nodup)
    (he : e.modelId ∉ q.map (fun x => x.modelId)) :
    ((q ++ [e]).map (fun x => x.modelId)).Nodup := by
  rw [List.map_append, List.map_cons, List.map_nil,
    show (q.map (fun x => x.modelId)) ++ [e.modelId] =
      (q.map (fun x => x.modelId)) ++ e.modelId :: [] from rfl,
    List.nodup_middle]
  simpa using List.nodup_cons.mpr ⟨he, h⟩

/-- `tryTrigger` preserves distinctness of queued ids. -/
lemma nodup_tryTrigger (id : String) (pr : Nat) (s : EngineState)
    (h : (queueIds s).Nodup) : (queueIds (tryTrigger id pr s)).Nodup := by
  simp only [tryTrigger]
  split_ifs with h1 h2 h3 h4 h5
  · exact h
  · exact h
  · exact nodup_snoc s.responseQueue ⟨id, pr⟩ h h3
  · exact h
  · exact h
  · exact nodup_insertByPriority s.responseQueue ⟨id, pr⟩ h h5

/-- `completeResponse` preserves distinctness of queued ids. -/
lemma nodup_completeResponse (id : String) (paused : Bool) (now : Nat)
    (s : EngineState) (h : (queueIds s).Nodup) :
    (queueIds (completeResponse id paused now s)).Nodup := by
  rw [queueIds] at h
  simp only [completeResponse]
  rcases hq : s.responseQueue with _ | ⟨nx, rest⟩ <;> simp only [hq]
  · simp [queueIds]
  · rw [hq, List.map_cons] at h
    split_ifs
    · simpa [queueIds, hq] using h
    · simpa [queueIds] using (List.nodup_cons.mp h).2

/-- `fireInterTurnTimerBody` preserves distinctness of queued ids. -/
lemma nodup_fireInterTurnBody (id : String) (paused : Bool) (s : EngineState)
    (h : (queueIds s).Nodup) :
    (queueIds (fireInterTurnTimerBody id paused s)).Nodup := by
  rw [queueIds] at h
  simp only [fireInterTurnTimerBody, triggerResponse]
  split_ifs with h1 h2
  · exact h
  all_goals
    rcases hq : s.responseQueue with _ | ⟨nx, rest⟩ <;> simp only [hq]
  · simp [queueIds]
  · rw [hq] at h
    simpa [queueIds] using h
  · simp [queueIds]
  · rw [hq, List.map_cons] at h
    simpa [queueIds] using (List.nodup_cons.mp h).2

/-- `forceQueueResponse` preserves distinctness of queued ids. -/
lemma nodup_forceQueueResponse (id : String) (d p : Nat) (s : EngineState)
    (h : (queueIds s).Nodup) :
    (queueIds (forceQueueResponse id d p s)).Nodup := by
  simp only [forceQueueResponse]
  apply nodup_queueResponse
  show ((s.responseQueue.filter (fun e => e.modelId ≠ id)).map
    (fun e => e.modelId)).Nodup
  exact List.Nodup.sublist
    ((List.filter_sublist s.responseQueue).map (fun e => e.modelId)) h

/-- `fireQueueTimerBody` preserves distinctness of queued ids. -/
lemma nodup_fireQueueBody (id : String) (p : Nat) (paused : Bool)
    (s : EngineState) (h : (queueIds s).Nodup) :
    (queueIds (fireQueueTimerBody id p paused s)).Nodup := by
  simp only [fireQueueTimerBody]
  split_ifs
  · exact h
  · exact nodup_tryTrigger id p s h
  · exact h

/-- `fireRecheckTimerBody` preserves distinctness of queued ids. -/
lemma nodup_fireRecheckBody (id : String) (p : Nat) (paused : Bool)
    (s : EngineState) (h : (queueIds s).Nodup) :
    (queueIds (fireRecheckTimerBody id p paused s)).Nodup := by
  simp only [fireRecheckTimerBody]
  split_ifs
  · exact nodup_tryTrigger id p s h
  · exact nodup_queueResponse id 500 p s h
  · exact h

/-- Every scheduler step preserves distinctness of queued ids. -/
lemma nodup_step (op : Op) (s : EngineState) (h : (queueIds s).Nodup) :
    (queueIds (step op s)).Nodup := by
  cases op with
  | queue id d p => exact nodup_queueResponse id d p s h
  | force id d p => exact nodup_forceQueueResponse id d p s h
  | fireQueue id d p paused =>
    show (queueIds (if Timer.queueT id d p ∈ s.timers then _ else s)).Nodup
    split_ifs
    · exact nodup_fireQueueBody id p paused _ h
    · exact h
  | fireRecheck id p paused =>
    show (queueIds (if Timer.recheckT id p ∈ s.timers then _ else s)).Nodup
    split_ifs
    · exact nodup_fireRecheckBody id p paused _ h
    · exact h
  | fireInterTurn id paused =>
    show (queueIds (if Timer.interTurnT id ∈ s.timers then _ else s)).Nodup
    split_ifs
    · exact nodup_fireInterTurnBody id paused _ h
    · exact h
  | complete id paused now => exact nodup_completeResponse id paused now s h
  | resetOp =>
    show (queueIds (reset s)).Nodup
    simp [reset, initState, queueIds]

/-- Distinctness of queued ids along any operation sequence. -/
lemma nodup_run_aux (ops : List Op) (s : EngineState)
    (h : (queueIds s).Nodup) :
    (queueIds (ops.foldl (fun s op => step op s) s)).Nodup := by
  induction ops generalizing s with
  | nil => simpa using h
  | cons op rest ih => exact ih _ (nodup_step op s h)

/-- Claim C2 (counterexample).  While an agent is actually streaming,
`tryTrigger` appends to the queue in arrival order regardless of priority: in
`streamingEnqueueTrace` the entries arrive with priorities [70, 90, 70] while
`X` streams and the queue ends up `[A 70, B 90, C 70]` — `B` (priority 90) is
NOT before the lower-priority `A`, and when `X` completes the first agent
drained is `A` (priority 70), not the 90-priority `B`; the claimed drain order
[90, 70, 70] does not hold. -/
theorem C2_fifo_while_streaming :
    (run streamingEnqueueTrace).responseQueue =
      [⟨"A", 70⟩, ⟨"B", 90⟩, ⟨"C", 70⟩]
    ∧ (run (streamingEnqueueTrace ++ [Op.complete "X" false 1000])).pendingModels
        = ["A"] :=
  ⟨rfl, rfl⟩

/-- Claim C2 (amended).  Priority-ordered insertion happens only on the branch
taken when no agent is streaming but the concurrency counter is saturated (the
inter-turn window): there the new entry is placed immediately before the first
entry with strictly lower priority (after the maximal prefix of entries with
priority ≥ the new one) — the `insertByPriority` characterisation.  While an
agent is streaming, insertion appends in FIFO order regardless of priority.
The queue never holds two entries with the same agent id on any reachable
state.  Entries with priorities [70, 90, 70] enqueued in that order during the
inter-turn window give the drain order [90, 70(first), 70(second)]. -/
theorem C2_queue_ordering_amended :
    (∀ (q : List QueueEntry) (e : QueueEntry),
      insertByPriority q e =
        q.takeWhile (fun x => decide (e.priority ≤ x.priority)) ++
          e :: q.dropWhile (fun x => decide (e.priority ≤ x.priority)))
    ∧ (∀ (s : EngineState) (id : String) (pr : Nat),
        s.streamingModels ≠ [] → id ∉ s.streamingModels → id ∉ queueIds s →
        (tryTrigger id pr s).responseQueue = s.responseQueue ++ [⟨id, pr⟩])
    ∧ (∀ ops : List Op, (queueIds (run ops)).Nodup)
    ∧ (run interTurnEnqueueTrace).responseQueue =
        [⟨"B", 90⟩, ⟨"A", 70⟩, ⟨"C", 70⟩]
    ∧ (run (interTurnEnqueueTrace ++
        [Op.fireInterTurn "D" false, Op.complete "D" false 2000])).pendingModels
        = ["B"] := by
  refine ⟨insertByPriority_eq, ?_, ?_, rfl, rfl⟩
  · intro s id pr hs0 hid hq
    simp only [tryTrigger]
    split_ifs with h1
    · exact absurd h1 hq
    · rfl
  · intro ops
    exact nodup_run_aux ops initState (by simp [queueIds, initState])

/-- Witness for the amended C2: a concrete FIFO append while `X` streams. -/
theorem C2_queue_ordering_amended_witness :
    (tryTrigger "A" 70
        (run [Op.queue "X" 2000 50, Op.fireQueue "X" 2000 50 false])).responseQueue
      = (run [Op.queue "X" 2000 50, Op.fireQueue "X" 2000 50 false]).responseQueue
          ++ [⟨"A", 70⟩] :=
  C2_queue_ordering_amended.2.1 _ "A" 70 (by decide) (by decide) (by decide)

/-! ## Claim C3 — single active speaker -/

/-- Claim C3 (code bug).  The single-active-speaker invariant is violated on a
reachable trace: `completeResponse` arms an 8 s inter-turn `setTimeout` whose
handle is never stored, so `reset ()` cannot cancel it.  In `staleTimerTrace`
the stale timer fires after a reset while `C` is already streaming and
unconditionally marks `B` streaming and invokes the response handler — two
agents are in the `Streaming` state at once even though `maxConcurrent = 1`,
and the second dispatch happened while another agent was streaming instead of
being queued. -/
theorem C3_two_streaming_agents :
    (run staleTimerTrace).streamingModels = ["B", "C"]
    ∧ (run staleTimerTrace).dispatched = ["A", "C", "B"]
    ∧ maxConcurrent = 1 :=
  ⟨rfl, rfl, rfl⟩

/-! ## Claim C8 — reset -/

/-- `analyzeForResponse` reads the engine state only through `cooldowns` and
`messageCountSinceResponse`; its decision and resulting silence map agree on
any two states with equal such fields. -/
lemma analyzeForResponse_congr (s t : EngineState)
    (hc : s.cooldowns = t.cooldowns)
    (hm : s.messageCountSinceResponse = t.messageCountSinceResponse)
    (model : Model) (msgs : List Message) (latest : Message)
    (act : List Model) (now rand : Nat) :
    (analyzeForResponse s model msgs latest act now rand).1
      = (analyzeForResponse t model msgs latest act now rand).1
    ∧ (analyzeForResponse s model msgs latest act now rand).2.messageCountSinceResponse
      = (analyzeForResponse t model msgs latest act now rand).2.messageCountSinceResponse := by
  simp only [analyzeForResponse, hc, hm]
  split_ifs <;> simp_all

/-- Claim C8 (counterexample).  After `resetStaleTrace` (which ends in
`reset ()` while the inter-turn timer for `X` is armed) the stale timer fires
with NO post-reset `queueResponse`, yet it dispatches `X`; the same operation
on a freshly constructed scheduler is a no-op.  Post-reset behaviour is
therefore not identical to a fresh instance, refuting the claim's "every
subsequent operation behaves identically" part. -/
theorem C8_stale_timer_after_reset :
    (run resetStaleTrace).dispatched = ["A"]
    ∧ (run (resetStaleTrace ++ [Op.fireInterTurn "X" false])).dispatched
        = ["A", "X"]
    ∧ (run (resetStaleTrace ++ [Op.fireInterTurn "X" false])).streamingModels
        = ["X"]
    ∧ step (Op.fireInterTurn "X" false) initState = initState :=
  ⟨rfl, rfl, rfl, rfl⟩

/-- Claim C8 (amended).  `reset ()` restores the six state components —
cooldowns, queue, pending set, streaming set, concurrency counter, silence
counters — to the fresh-scheduler values, and a subsequent `decide` evaluation
returns exactly the decision (and produces exactly the silence state) of a
freshly constructed scheduler.  Timers armed before the reset are, however,
not cancelled (the source stores no `setTimeout` handles), so full behavioural
identity with a fresh instance holds only for operation sequences that fire no
timer armed before the reset. -/
theorem C8_reset_amended :
    ∀ s : EngineState,
      ((reset s).cooldowns = initState.cooldowns
        ∧ (reset s).responseQueue = initState.responseQueue
        ∧ (reset s).pendingModels = initState.pendingModels
        ∧ (reset s).streamingModels = initState.streamingModels
        ∧ (reset s).currentlyResponding = initState.currentlyResponding
        ∧ (reset s).messageCountSinceResponse
            = initState.messageCountSinceResponse)
      ∧ ∀ (model : Model) (msgs : List Message) (latest : Message)
          (act : List Model) (now rand : Nat),
          (analyzeForResponse (reset s) model msgs latest act now rand).1
            = (analyzeForResponse initState model msgs latest act now rand).1
          ∧ (analyzeForResponse (reset s) model msgs latest act
              now rand).2.messageCountSinceResponse
            = (analyzeForResponse initState model msgs latest act
                now rand).2.messageCountSinceResponse := by
  intro s
  refine ⟨⟨rfl, rfl, rfl, rfl, rfl, rfl⟩, ?_⟩
  intro model msgs latest act now rand
  exact analyzeForResponse_congr (reset s) initState rfl rfl model msgs latest
    act now rand

/-! ## Claim C6 — silence counter bookkeeping -/

/-- Looking up the key just written. -/
lemma lookupD_setK_same (m : List (String × Nat)) (k : String) (v : Nat) :
    lookupD (setK m k v) k = v := by
  simp [lookupD, setK]

/-- Lookup is unaffected by removing bindings of a different key. -/
lemma lookupD_filter_ne (m : List (String × Nat)) (k k' : String)
    (h : k' ≠ k) :
    lookupD (m.filter (fun p => p.1 ≠ k)) k' = lookupD m k' := by
  have hkk : ¬ (k = k') := fun hh => h hh.symm
  induction m with
  | nil => rfl
  | cons a rest ih =>
    by_cases ha : a.1 = k
    · have ha' : ¬ (a.1 = k') := fun hh => h ((hh.symm.trans ha))
      simp only [List.filter_cons, ha, lookupD, ha', if_false]
      simpa [ha, ha', hkk, lookupD] using ih
    · by_cases ha' : a.1 = k'
      · simp [List.filter_cons, ha, lookupD, ha', h]
      · simp only [List.filter_cons, ha, lookupD, ha', if_false]
        simpa [ha, ha', lookupD] using ih

/-- Looking up a different key after a write. -/
lemma lookupD_setK_ne (m : List (String × Nat)) (k k' : String) (v : Nat)
    (h : k' ≠ k) : lookupD (setK m k v) k' = lookupD m k' := by
  have hne : ¬ (k = k') := fun hh => h hh.symm
  simp only [setK, lookupD, hne, if_false]
  exact lookupD_filter_ne m k k' h

/-- `tryTrigger` never touches the silence map. -/
lemma mcsr_tryTrigger (id : String) (pr : Nat) (s : EngineState) :
    (tryTrigger id pr s).messageCountSinceResponse
      = s.messageCountSinceResponse := by
  simp only [tryTrigger, triggerResponse]
  split_ifs <;> rfl

/-- `queueResponse` never touches the silence map. -/
lemma mcsr_queueResponse (id : String) (d p : Nat) (s : EngineState) :
    (queueResponse id d p s).messageCountSinceResponse
      = s.messageCountSinceResponse := by
  unfold queueResponse
  split_ifs <;> rfl

/-- `forceQueueResponse` never touches the silence map. -/
lemma mcsr_forceQueueResponse (id : String) (d p : Nat) (s : EngineState) :
    (forceQueueResponse id d p s).messageCountSinceResponse
      = s.messageCountSinceResponse := by
  simp only [forceQueueResponse]
  rw [mcsr_queueResponse]

/-- The inter-turn timer body never touches the silence map. -/
lemma mcsr_fireInterTurnBody (id : String) (paused : Bool) (s : EngineState) :
    (fireInterTurnTimerBody id paused s).messageCountSinceResponse
      = s.messageCountSinceResponse := by
  simp only [fireInterTurnTimerBody, triggerResponse]
  split_ifs <;> rcases s.responseQueue with _ | ⟨nx, rest⟩ <;> rfl

/-- Operations other than `completeResponse` and `reset`. -/
def silenceUntouched : Op → Bool
  | Op.complete _ _ _ => false
  | Op.resetOp => false
  | _ => true

/-- Claim C6 (counterexample).  An evaluation of the decision function on the
agent's own message returns `shouldRespond = false` and leaves the engine
state — in particular the silence counter — completely unchanged, while the
claim demands an increment by exactly 1 on every evaluation. -/
theorem C6_own_message_not_counted :
    (analyzeForResponse initState ⟨"m1", "Kimi"⟩ []
        ⟨Role.assistant, "reply", some "m1"⟩ [⟨"m1", "Kimi"⟩] 9000 0).2
      = initState
    ∧ (analyzeForResponse initState ⟨"m1", "Kimi"⟩ []
        ⟨Role.assistant, "reply", some "m1"⟩ [⟨"m1", "Kimi"⟩] 9000 0).1.shouldRespond
      = false :=
  ⟨rfl, rfl⟩

/-- Claim C6 (amended).  Every evaluation of the decision function for an
agent on a message not authored by that agent and not authored by `"system"`
increments that agent's silence counter by exactly 1, even when the returned
decision has `shouldRespond = false` (the cooldown short-circuit happens after
the increment); evaluations on the agent's own or system messages return
before the increment.  The counter is set to 0 exactly when
`completeResponse` runs for that agent (other agents' counters are
untouched), and no other scheduler operation apart from the bulk `reset ()`
changes the silence map. -/
theorem C6_silence_amended :
    (∀ (eng : EngineState) (model : Model) (msgs : List Message)
        (latest : Message) (act : List Model) (now rand : Nat),
      latest.modelId ≠ some model.id → latest.modelId ≠ some "system" →
      lookupD (analyzeForResponse eng model msgs latest act
          now rand).2.messageCountSinceResponse model.id
        = lookupD eng.messageCountSinceResponse model.id + 1)
    ∧ (∀ (id : String) (paused : Bool) (now : Nat) (s : EngineState),
        lookupD (completeResponse id paused now s).messageCountSinceResponse id
          = 0)
    ∧ (∀ (id id' : String) (paused : Bool) (now : Nat) (s : EngineState),
        id' ≠ id →
        lookupD (completeResponse id paused now s).messageCountSinceResponse id'
          = lookupD s.messageCountSinceResponse id')
    ∧ (∀ (op : Op) (s : EngineState), silenceUntouched op = true →
        (step op s).messageCountSinceResponse
          = s.messageCountSinceResponse) := by
  refine ⟨?_, ?_, ?_, ?_⟩
  · intro eng model msgs latest act now rand h1 h2
    have hcond : ¬ (latest.modelId = some model.id
        ∨ latest.modelId = some "system") := by
      rintro (hh | hh) <;> [exact h1 hh; exact h2 hh]
    simp only [analyzeForResponse, if_neg hcond]
    split_ifs <;> simp [lookupD_setK_same]
  · intro id paused now s
    simp only [completeResponse]
    rcases hq : s.responseQueue with _ | ⟨nx, rest⟩
    · exact lookupD_setK_same _ _ _
    · split_ifs <;> exact lookupD_setK_same _ _ _
  · intro id id' paused now s hne
    simp only [completeResponse]
    rcases hq : s.responseQueue with _ | ⟨nx, rest⟩
    · exact lookupD_setK_ne _ _ _ _ hne
    · split_ifs <;> exact lookupD_setK_ne _ _ _ _ hne
  · intro op s hop
    cases op with
    | queue id d p => exact mcsr_queueResponse id d p s
    | force id d p => exact mcsr_forceQueueResponse id d p s
    | fireQueue id d p paused =>
      show (if Timer.queueT id d p ∈ s.timers then _ else s).messageCountSinceResponse
        = s.messageCountSinceResponse
      split_ifs
      · show (fireQueueTimerBody id p paused _).messageCountSinceResponse = _
        simp only [fireQueueTimerBody]
        split_ifs <;> first | rfl | exact mcsr_tryTrigger id p _
      · rfl
    | fireRecheck id p paused =>
      show (if Timer.recheckT id p ∈ s.timers then _ else s).messageCountSinceResponse
        = s.messageCountSinceResponse
      split_ifs
      · show (fireRecheckTimerBody id p paused _).messageCountSinceResponse = _
        simp only [fireRecheckTimerBody]
        split_ifs <;>
          first
            | rfl
            | exact mcsr_tryTrigger id p _
            | exact mcsr_queueResponse id 500 p _
      · rfl
    | fireInterTurn id paused =>
      show (if Timer.interTurnT id ∈ s.timers then _ else s).messageCountSinceResponse
        = s.messageCountSinceResponse
      split_ifs
      · exact mcsr_fireInterTurnBody id paused _
      · rfl
    | complete id paused now => simp [silenceUntouched] at hop
    | resetOp => simp [silenceUntouched] at hop

/-- Witness for the amended C6: a fresh agent evaluated on a plain user
message, counter goes from 0 to 1. -/
theorem C6_silence_amended_witness :
    lookupD (analyzeForResponse initState ⟨"m1", "Kimi"⟩ []
        ⟨Role.user, "hello", none⟩ [⟨"m1", "Kimi"⟩] 9000
        0).2.messageCountSinceResponse "m1"
      = lookupD initState.messageCountSinceResponse "m1" + 1 :=
  C6_silence_amended.1 initState ⟨"m1", "Kimi"⟩ [] ⟨Role.user, "hello", none⟩
    [⟨"m1", "Kimi"⟩] 9000 0 (by decide) (by decide)

/-! ## Claim C5 — cooldown gate with mention bypass -/

/-- Claim C5 (confirmed).  For a triggering message not authored by the agent
itself nor by `"system"`: if the agent is inside the 8000 ms cooldown window
and the message contains no `@tag` mention of the agent, the decision is
`shouldRespond = false`; if the message does contain such a mention, the
decision is `shouldRespond = true` with `priority = 100`, regardless of the
cooldown state. -/
theorem C5_cooldown_and_mention :
    ∀ (eng : EngineState) (model : Model) (msgs : List Message)
      (latest : Message) (act : List Model) (now rand : Nat),
      latest.modelId ≠ some model.id → latest.modelId ≠ some "system" →
      (((now : Int) - (lookupD eng.cooldowns model.id : Int) < 8000 →
          isMentioned latest.content model.shortName = false →
          (analyzeForResponse eng model msgs latest act
            now rand).1.shouldRespond = false)
        ∧ (isMentioned latest.content model.shortName = true →
          (analyzeForResponse eng model msgs latest act
              now rand).1.shouldRespond = true
          ∧ (analyzeForResponse eng model msgs latest act
              now rand).1.priority = 100)) := by
  intro eng model msgs latest act now rand h1 h2
  have hcond : ¬ (latest.modelId = some model.id
      ∨ latest.modelId = some "system") := by
    rintro (hh | hh) <;> [exact h1 hh; exact h2 hh]
  constructor
  · intro hcool hment
    simp only [analyzeForResponse, if_neg hcond]
    split_ifs with hcd
    · rfl
    · exact absurd ⟨decide_eq_true hcool, by simp [hment]⟩ hcd
  · intro hment
    simp only [analyzeForResponse, if_neg hcond, hment]
    split_ifs <;>
      first
        | exact ⟨rfl, by dsimp only; decide⟩
        | simp_all

/-- Witness for C5: agent `m1` with an empty cooldown record evaluated at
`now = 1000` (inside the window since `lastResponseAt` defaults to 0): a plain
user message is suppressed, a mentioning one gets priority 100. -/
theorem C5_cooldown_and_mention_witness :
    (analyzeForResponse initState ⟨"m1", "Kimi"⟩ []
        ⟨Role.user, "hello", none⟩ [⟨"m1", "Kimi"⟩] 1000 0).1.shouldRespond
      = false
    ∧ (analyzeForResponse initState ⟨"m1", "Kimi"⟩ []
        ⟨Role.user, "hi @kimi!", none⟩ [⟨"m1", "Kimi"⟩] 1000 0).1.priority
      = 100 :=
  ⟨(C5_cooldown_and_mention initState ⟨"m1", "Kimi"⟩ []
      ⟨Role.user, "hello", none⟩ [⟨"m1", "Kimi"⟩] 1000 0 (by decide)
      (by decide)).1 (by decide) (by decide),
   ((C5_cooldown_and_mention initState ⟨"m1", "Kimi"⟩ []
      ⟨Role.user, "hi @kimi!", none⟩ [⟨"m1", "Kimi"⟩] 1000 0 (by decide)
      (by decide)).2 (by decide)).2⟩

/-! ## Claim C9 — decision shape -/

/-- Claim C9 (confirmed).  Every decision either has `shouldRespond = true`
with a priority in {50, 60, 70, 80, 100} (the max-layering of the base 50
with 100/80/70/60), or has `shouldRespond = false` with priority 0 and
delay 0 (both early returns). -/
theorem C9_decision_shape :
    ∀ (eng : EngineState) (model : Model) (msgs : List Message)
      (latest : Message) (act : List Model) (now rand : Nat),
      ((analyzeForResponse eng model msgs latest act
          now rand).1.shouldRespond = true
        ∧ (analyzeForResponse eng model msgs latest act
            now rand).1.priority ∈ ([50, 60, 70, 80, 100] : List Nat))
      ∨ ((analyzeForResponse eng model msgs latest act
            now rand).1.shouldRespond = false
        ∧ (analyzeForResponse eng model msgs latest act
            now rand).1.priority = 0
        ∧ (analyzeForResponse eng model msgs latest act
            now rand).1.delay = 0) := by
  intro eng model msgs latest act now rand
  simp only [analyzeForResponse]
  split_ifs <;>
    first
      | exact Or.inr ⟨rfl, rfl, rfl⟩
      | (refine Or.inl ⟨rfl, ?_⟩
         dsimp only
         decide)

/-! ## Claim C4 — pause correctness -/

/-- Claim C4 (code bug).  A Pending agent whose delay timer fires during a
pause is silently dropped, not deferred: the paused branch of the
`queueResponse` timer arms the 500 ms recheck and then deletes the agent from
`pendingModels`, and the recheck body only acts when the agent is still in
`pendingModels`.  After `pauseDropTrace` (timer fires paused, recheck fires
unpaused) the scheduler is back to the fresh state: the agent is in no set, no
timer is armed, and no dispatch ever happened — the armed response was lost,
contradicting the claim that it is eventually dispatched or queued. -/
theorem C4_paused_response_dropped :
    run pauseDropTrace = initState
    ∧ (run pauseDropTrace).dispatched = [] :=
  ⟨rfl, rfl⟩

/-! ## Claims C7 and C10 — streaming session manager -/

/-- Once `hasContent` is set it stays set. -/
lemma runEvents_hc_true (evs : List SSEvent) :
    (runEvents evs true).2.1 = true := by
  induction evs with
  | nil => rfl
  | cons e rest ih =>
    cases e with
    | doneEv => rfl
    | contentEv s =>
      by_cases hs : s ≠ "" <;> simp [runEvents, hs, ih]
    | errorEv s => simpa [runEvents] using ih
    | junkEv => simpa [runEvents] using ih

/-- No tokens are delivered when the final `hasContent` flag is false. -/
lemma runEvents_tokens_nil (evs : List SSEvent) (b : Bool)
    (h : (runEvents evs b).2.1 = false) : (runEvents evs b).1 = [] := by
  induction evs generalizing b with
  | nil => rfl
  | cons e rest ih =>
    cases e with
    | doneEv => rfl
    | contentEv s =>
      by_cases hs : s ≠ ""
      · exfalso
        rw [show (runEvents (SSEvent.contentEv s :: rest) b).2.1
            = (runEvents rest true).2.1 by simp [runEvents, hs]] at h
        rw [runEvents_hc_true rest] at h
        exact Bool.true_eq_false.mp h
      · rw [show runEvents (SSEvent.contentEv s :: rest) b
            = runEvents rest b by simp [runEvents, hs]] at h ⊢
        exact ih b h
    | errorEv s =>
      rw [show runEvents (SSEvent.errorEv s :: rest) b
          = runEvents rest b from rfl] at h ⊢
      exact ih b h
    | junkEv =>
      rw [show runEvents (SSEvent.junkEv :: rest) b
          = runEvents rest b from rfl] at h ⊢
      exact ih b h

/-- Claim C7 (counterexample).  On an upstream stream that ends with zero
content tokens the session emits exactly one placeholder token before
completing, but its content is the Russian string `"[Модель не ответила]"`,
not the claim's literal `"model did not respond"`. -/
theorem C7_placeholder_content_differs :
    streamModelResponse ⟨[SSEvent.doneEv], Terminal.endOfBody⟩ =
      [StreamAction.addCtrl, StreamAction.delCtrl,
       StreamAction.tok "[Модель не ответила]", StreamAction.completeCb]
    ∧ ("[Модель не ответила]" : String) ≠ "model did not respond" :=
  ⟨rfl, by decide⟩

/-- Claim C7 (amended).  For every streaming session whose upstream stream
terminates by the `[DONE]` sentinel or by end of body having delivered zero
content tokens, the session manager emits exactly one placeholder token —
with content `"[Модель не ответила]"` ("the model did not respond") — via
`onToken` before invoking `onComplete`, so such a turn never completes with
empty content. -/
theorem C7_empty_stream_placeholder_amended :
    ∀ (evs : List SSEvent) (t : Terminal),
      (runEvents evs false).2.1 = false →
      ((runEvents evs false).2.2 = true ∨ t = Terminal.endOfBody) →
      streamModelResponse ⟨evs, t⟩ =
        [StreamAction.addCtrl, StreamAction.delCtrl,
         StreamAction.tok emptyPlaceholder, StreamAction.completeCb] := by
  intro evs t hc hterm
  have htok := runEvents_tokens_nil evs false hc
  rcases hterm with hd | ht
  · simp [streamModelResponse, htok, hc, hd]
  · subst ht
    rcases hsd : (runEvents evs false).2.2 with _ | _ <;>
      simp [streamModelResponse, htok, hc, hsd]

/-- Witness for the amended C7: the stream that immediately sends `[DONE]`. -/
theorem C7_empty_stream_placeholder_amended_witness :
    streamModelResponse ⟨[SSEvent.doneEv], Terminal.endOfBody⟩ =
      [StreamAction.addCtrl, StreamAction.delCtrl,
       StreamAction.tok emptyPlaceholder, StreamAction.completeCb] :=
  C7_empty_stream_placeholder_amended [SSEvent.doneEv] Terminal.endOfBody rfl
    (Or.inl rfl)

/-- Token actions do not affect the controller registry. -/
lemma applyActions_toks (mid : String) (reg : List String) (l : List String)
    (rest : List StreamAction) :
    applyActions mid reg (l.map StreamAction.tok ++ rest)
      = applyActions mid reg rest := by
  induction l generalizing reg with
  | nil => rfl
  | cons a l ih => simpa [applyActions] using ih reg

/-- Deleting right after inserting leaves the registry as if only the delete
ran. -/
lemma eraseS_insertS (mid : String) (reg : List String) :
    eraseS mid (insertS mid reg) = eraseS mid reg := by
  simp only [insertS, eraseS]
  split_ifs with h
  · rfl
  · simp [List.filter_cons]

/-- Effect on the registry of the standard session trace: add, tokens,
delete, placeholder tokens, one terminal callback. -/
lemma applyActions_std (mid : String) (reg : List String)
    (toks ph : List String) (last : StreamAction)
    (hlast : last = StreamAction.completeCb
      ∨ ∃ m, last = StreamAction.errorCb m) :
    applyActions mid reg (StreamAction.addCtrl :: toks.map StreamAction.tok ++
        StreamAction.delCtrl :: (ph.map StreamAction.tok ++ [last]))
      = eraseS mid reg := by
  rw [show (StreamAction.addCtrl :: toks.map StreamAction.tok ++
      StreamAction.delCtrl :: (ph.map StreamAction.tok ++ [last]))
      = StreamAction.addCtrl :: (toks.map StreamAction.tok ++
        StreamAction.delCtrl :: (ph.map StreamAction.tok ++ [last])) from rfl]
  rw [show applyActions mid reg (StreamAction.addCtrl ::
      (toks.map StreamAction.tok ++
        StreamAction.delCtrl :: (ph.map StreamAction.tok ++ [last])))
      = applyActions mid (insertS mid reg) (toks.map StreamAction.tok ++
        StreamAction.delCtrl :: (ph.map StreamAction.tok ++ [last])) from rfl]
  rw [applyActions_toks]
  rw [show applyActions mid (insertS mid reg) (StreamAction.delCtrl ::
      (ph.map StreamAction.tok ++ [last]))
      = applyActions mid (eraseS mid (insertS mid reg))
        (ph.map StreamAction.tok ++ [last]) from rfl]
  rw [applyActions_toks, eraseS_insertS]
  rcases hlast with h | ⟨m, h⟩ <;> subst h <;> rfl

/-- Claim C10 (confirmed).  Every terminal path of `streamModelResponse`
removes the agent's `AbortController` from the registry before invoking
`onComplete` or `onError`: the action trace is always
`addCtrl, tokens…, delCtrl, placeholder-tokens…, (onComplete | onError)`,
with exactly one registry removal strictly before the single terminal
callback; consequently the registry ends without the agent's entry and
`hasActiveStreams` is false once a lone session has reported its terminal
callback. -/
theorem C10_registry_cleanup :
    ∀ (input : StreamInput) (mid : String) (reg : List String),
      (∃ (toks ph : List String) (last : StreamAction),
        streamModelResponse input =
          StreamAction.addCtrl :: toks.map StreamAction.tok ++
            StreamAction.delCtrl :: (ph.map StreamAction.tok ++ [last])
        ∧ (last = StreamAction.completeCb
            ∨ ∃ m, last = StreamAction.errorCb m))
      ∧ applyActions mid reg (streamModelResponse input) = eraseS mid reg
      ∧ hasActiveStreams (applyActions mid [] (streamModelResponse input))
          = false := by
  intro input mid reg
  obtain ⟨evs, t⟩ := input
  have hstruct : ∃ (toks ph : List String) (last : StreamAction),
      streamModelResponse ⟨evs, t⟩ =
        StreamAction.addCtrl :: toks.map StreamAction.tok ++
          StreamAction.delCtrl :: (ph.map StreamAction.tok ++ [last])
      ∧ (last = StreamAction.completeCb
          ∨ ∃ m, last = StreamAction.errorCb m) := by
    rcases hsd : (runEvents evs false).2.2 with _ | _
    · cases t with
      | endOfBody =>
        rcases hhc : (runEvents evs false).2.1 with _ | _
        · exact ⟨(runEvents evs false).1, [emptyPlaceholder],
            StreamAction.completeCb,
            by simp [streamModelResponse, hsd, hhc], Or.inl rfl⟩
        · exact ⟨(runEvents evs false).1, [], StreamAction.completeCb,
            by simp [streamModelResponse, hsd, hhc], Or.inl rfl⟩
      | thrown name msg =>
        rcases habort : isAbortLike name msg with _ | _
        · exact ⟨(runEvents evs false).1, [],
            StreamAction.errorCb (errString name msg),
            by simp [streamModelResponse, hsd, habort],
            Or.inr ⟨errString name msg, rfl⟩⟩
        · rcases hhc : (runEvents evs false).2.1 with _ | _
          · rcases htmo : strContains (errString name msg) "timeout"
              with _ | _
            · exact ⟨(runEvents evs false).1, [], StreamAction.completeCb,
                by simp [streamModelResponse, hsd, habort, hhc, htmo],
                Or.inl rfl⟩
            · exact ⟨(runEvents evs false).1, [timeoutPlaceholder],
                StreamAction.completeCb,
                by simp [streamModelResponse, hsd, habort, hhc, htmo],
                Or.inl rfl⟩
          · exact ⟨(runEvents evs false).1, [], StreamAction.completeCb,
              by simp [streamModelResponse, hsd, habort, hhc], Or.inl rfl⟩
    · rcases hhc : (runEvents evs false).2.1 with _ | _
      · exact ⟨(runEvents evs false).1, [emptyPlaceholder],
          StreamAction.completeCb,
          by simp [streamModelResponse, hsd, hhc], Or.inl rfl⟩
      · exact ⟨(runEvents evs false).1, [], StreamAction.completeCb,
          by simp [streamModelResponse, hsd, hhc], Or.inl rfl⟩
  obtain ⟨toks, ph, last, heq, hlast⟩ := hstruct
  refine ⟨⟨toks, ph, last, heq, hlast⟩, ?_, ?_⟩
  · rw [heq]
    exact applyActions_std mid reg toks ph last hlast
  · rw [heq, applyActions_std mid [] toks ph last hlast]
    rfl

end GrpChat
